import Mathlib

/-!
Shallow embedding of the document-conversion core of the
`ai_ready_file_converter` repository, together with proofs settling the
frozen claims C1..C10 about it.

The embedding follows the Python source under `src/converters/`:
* `base.py` (`BaseConverter.convert` / `to_markdown` / `to_json` caching),
* `docx_converter.py` (word-processor extraction and Markdown rendering),
* `xlsx_converter.py` (spreadsheet/CSV extraction and `records` view),
* `pdf_converter.py` / `pptx_converter.py` (table extraction),
* `image_converter.py` and `vision/` (vision provider selection and the
  typed analysis result),
* `reverse/md_to_docx.py` (the Markdown → Word document state machine).

Python strings are modelled as `List Char` where character-level
behaviour matters (the reverse parser), or as `String` elsewhere; machine
behaviour such as `str.strip`, `str.split`, `int(...)`, `str.replace`,
dict insertion order and the concrete regexes of the source are embedded
by hand, restricted to the ASCII inputs the converters operate on.
-/

namespace FileConv

/-! ### Python string primitives -/

/-- Characters stripped by Python `str.strip()` (the ASCII whitespace set
`" \t\n\r\x0b\x0c"`). -/
def pyIsSpace (c : Char) : Bool :=
  c = ' ' ∨ c = '\t' ∨ c = '\n' ∨ c = '\r' ∨ c = '\x0b' ∨ c = '\x0c'

/-- Python `str.strip()` on a character list. -/
def pyStripL (l : List Char) : List Char :=
  ((l.dropWhile pyIsSpace).reverse.dropWhile pyIsSpace).reverse

/-- Python `str.strip()`. -/
def pyStrip (s : String) : String :=
  ⟨pyStripL s.data⟩

/-- Python `str.lower()` (ASCII). -/
def pyLower (s : String) : String :=
  ⟨s.data.map Char.toLower⟩

/-- `l` begins with the pattern `p` (Python `str.startswith`). -/
def isPrefixL : List Char → List Char → Bool
  | [], _ => true
  | _ :: _, [] => false
  | a :: as, b :: bs => a = b ∧ isPrefixL as bs

/-- Python `str.split('\n')`: always at least one (possibly empty) part. -/
def splitLinesL : List Char → List (List Char)
  | [] => [[]]
  | '\n' :: rest =>
    [] :: splitLinesL rest
  | c :: rest =>
    match splitLinesL rest with
    | h :: t => (c :: h) :: t
    | [] => [[c]]

/-- Python `sep.join(parts)`. -/
def joinSep (sep : String) : List String → String
  | [] => ""
  | [x] => x
  | x :: xs => x ++ sep ++ joinSep sep xs

/-- Digit run of a Python `int(...)` literal: digits with single
underscores allowed between digits. Accumulates the value. -/
def pyDigitsAux : List Char → Nat → Option Nat
  | [], acc => some acc
  | '_' :: c :: rest, acc =>
    if c.isDigit then pyDigitsAux rest (acc * 10 + (c.toNat - 48)) else none
  | ['_'], _ => none
  | c :: rest, acc =>
    if c.isDigit then pyDigitsAux rest (acc * 10 + (c.toNat - 48)) else none

/-- Nonempty digit run (first char must be a digit). -/
def pyDigits : List Char → Option Nat
  | [] => none
  | c :: rest => if c.isDigit then pyDigitsAux rest (c.toNat - 48) else none

/-- Python `int(s)` on ASCII input: strips whitespace, allows one sign,
then a digit run; `none` models the raised `ValueError`. -/
def pyInt (s : String) : Option Int :=
  match pyStripL s.data with
  | '-' :: ds => (pyDigits ds).map (fun n => -(n : Int))
  | '+' :: ds => (pyDigits ds).map (fun n => (n : Int))
  | ds => (pyDigits ds).map (fun n => (n : Int))

/-- Python `s.replace(pat, repl)` for a nonempty pattern: replace all
non-overlapping occurrences left to right. Each step consumes at least
one character, so the fuel in `pyReplace` never runs out. -/
def pyReplaceAux (pat repl : List Char) : Nat → List Char → List Char
  | _, [] => []
  | 0, l => l
  | fuel + 1, c :: rest =>
    if pat ≠ [] ∧ isPrefixL pat (c :: rest) then
      repl ++ pyReplaceAux pat repl fuel ((c :: rest).drop pat.length)
    else
      c :: pyReplaceAux pat repl fuel rest

/-- Python `s.replace(pat, repl)`. -/
def pyReplace (pat repl l : List Char) : List Char :=
  pyReplaceAux pat repl l.length l

/-! ### Reverse converter (`reverse/md_to_docx.py`): document model

The generated `python-docx` document is abstracted as an ordered list of
blocks; runs inside a paragraph keep their formatting tag. -/

/-- A formatted run added by `_add_formatted_text` / `_add_hyperlink`. -/
inductive InlineRun
  | plain (s : String)
  | bold (s : String)
  | italic (s : String)
  | code (s : String)
  | link (text url : String)
deriving DecidableEq, Repr

/-- One block-level element added to the generated document. -/
inductive DocBlock
  /-- `doc.add_paragraph()` + `_add_formatted_text` (default branch). -/
  | para (runs : List InlineRun)
  /-- one line of a fenced block, `style='CodeBlock'`. -/
  | codePara (s : String)
  /-- `doc.add_paragraph(style=f'Heading {n}')` + formatted text. -/
  | heading (style : Nat) (runs : List InlineRun)
  /-- paragraph carrying a bottom border (`_add_horizontal_rule`). -/
  | hrule
  /-- `style='List Bullet'` item with its computed indent level. -/
  | bulletItem (indent : Nat) (runs : List InlineRun)
  /-- `style='List Number'` item with its computed indent level. -/
  | numberItem (indent : Nat) (runs : List InlineRun)
  /-- one italic, indented blockquote line. -/
  | quotePara (s : String)
  /-- `_add_table`: bold header cells and normalized data rows. -/
  | table (header : List String) (rows : List (List String))
  /-- the empty paragraph added after a table. -/
  | blankPara
deriving DecidableEq, Repr

/-! ### Inline formatting regex

`_add_formatted_text` scans a single line (the input never contains a
newline, since the caller splits on `'\n'`) with
`re.finditer(r'(\*\*(.+?)\*\*|\*(.+?)\*|`(.+?)`|\[(.+?)\]\((.+?)\))', text)`;
the alternatives are tried in order at each position, lazy groups take
the shortest nonempty content. -/

/-- Least index `i` with `l[i] = a` and `l[i+1] = b`. -/
def findPair (a b : Char) : List Char → Option Nat
  | [] => none
  | [_] => none
  | x :: y :: rest =>
    if x = a ∧ y = b then some 0
    else (findPair a b (y :: rest)).map (· + 1)

/-- Least `k ≥ 1` with `l[k] = c` (for the lazy single-delimiter groups). -/
def findCloserFrom1 (c : Char) (l : List Char) : Option Nat :=
  ((l.drop 1).findIdx? (· = c)).map (· + 1)

/-- `\*\*(.+?)\*\*` at the current position: returns the run and the
number of characters consumed. -/
def tryBold : List Char → Option (InlineRun × Nat)
  | '*' :: '*' :: rest =>
    match findPair '*' '*' (rest.drop 1) with
    | some i => some (.bold ⟨rest.take (i + 1)⟩, i + 5)
    | none => none
  | _ => none

/-- `\*(.+?)\*` at the current position. -/
def tryItalic : List Char → Option (InlineRun × Nat)
  | '*' :: rest =>
    match findCloserFrom1 '*' rest with
    | some k => some (.italic ⟨rest.take k⟩, k + 2)
    | none => none
  | _ => none

/-- `` `(.+?)` `` at the current position. -/
def tryCode : List Char → Option (InlineRun × Nat)
  | '`' :: rest =>
    match findCloserFrom1 '`' rest with
    | some k => some (.code ⟨rest.take k⟩, k + 2)
    | none => none
  | _ => none

/-- Backtracking search for `\](\(.+?\))` after the lazy link text: scan
`j = 1, 2, ...`; accept the first `j` with `rest[j] = ']'`,
`rest[j+1] = '('` and some `')'` at `rest[j+2+m]`, `m ≥ 1`. -/
def linkScan (rest : List Char) : Nat → Nat → Option (Nat × Nat)
  | _, 0 => none
  | j, fuel + 1 =>
    if j < rest.length then
      if rest[j]? = some ']' ∧ rest[j+1]? = some '(' then
        match (rest.drop (j + 3)).findIdx? (· = ')') with
        | some i => some (j, i + 1)
        | none => linkScan rest (j + 1) fuel
      else linkScan rest (j + 1) fuel
    else none

/-- `\[(.+?)\]\((.+?)\)` at the current position. -/
def tryLink : List Char → Option (InlineRun × Nat)
  | '[' :: rest =>
    match linkScan rest 1 rest.length with
    | some (j, m) =>
      some (.link ⟨rest.take j⟩ ⟨(rest.drop (j + 2)).take m⟩, j + m + 4)
    | none => none
  | _ => none

/-- The alternation, in the order of the source pattern. -/
def tryMatchAt (l : List Char) : Option (InlineRun × Nat) :=
  (tryBold l).orElse fun _ =>
    (tryItalic l).orElse fun _ =>
      (tryCode l).orElse fun _ => tryLink l

/-- Flush accumulated unmatched characters as one plain run (Python adds
`text[last_end:match.start()]` only when nonempty). -/
def flushPlain (acc : List Char) : List InlineRun :=
  if acc = [] then [] else [.plain ⟨acc.reverse⟩]

/-- The `finditer` loop of `_add_formatted_text`. `fuel` dominates the
number of scan steps; each step consumes at least one character, so
`fuel = length + 1` never runs out. -/
def afAux : Nat → List Char → List Char → List InlineRun
  | _, acc, [] => flushPlain acc
  | 0, acc, rest => flushPlain (rest.reverse ++ acc)
  | fuel + 1, acc, c :: cs =>
    match tryMatchAt (c :: cs) with
    | some (run, n) => flushPlain acc ++ run :: afAux fuel [] ((c :: cs).drop n)
    | none => afAux fuel (c :: acc) cs

/-- `_add_formatted_text` for a single line: the list of runs added. -/
def addFormattedText (s : String) : List InlineRun :=
  afAux (s.data.length + 1) [] s.data

/-! ### Reverse converter: line classification -/

/-- `re.match(r'^(#{1,6})\s+(.+)$', line)`: the greedy `#` run must stop
at a whitespace char within the first six characters; the greedy `\s+`
backtracks just enough to leave the nonempty `(.+)` group. Returns the
`#` count and the captured heading text. -/
def headingMatch (l : List Char) : Option (Nat × List Char) :=
  let k := (l.takeWhile (· = '#')).length
  if 1 ≤ k ∧ k ≤ 6 then
    match l.drop k with
    | [] => none
    | c :: rest =>
      if pyIsSpace c then
        let w := ((c :: rest).takeWhile pyIsSpace).length
        if k + w < l.length then some (k, l.drop (k + w))
        else if k + 1 < l.length then some (k, l.drop (l.length - 1))
        else none
      else none
  else none

/-- `re.match(r'^(-{3,}|\*{3,}|_{3,})$', line.strip())`. -/
def isHRuleLine (l : List Char) : Bool :=
  let t := pyStripL l
  t.length ≥ 3 ∧ (t.all (· = '-') ∨ t.all (· = '*') ∨ t.all (· = '_'))

/-- `re.match(r'^[\s]*[-*+]\s+', line)`: leading whitespace, a bullet
marker, then at least one whitespace char. -/
def ulistCond (l : List Char) : Bool :=
  match l.dropWhile pyIsSpace with
  | m :: c :: _ => (m = '-' ∨ m = '*' ∨ m = '+') ∧ pyIsSpace c
  | _ => false

/-- Shared tail of the list-item capture regexes: `\s+(.+)$` with the
greedy whitespace run backtracking to leave a nonempty capture. -/
def spaceThenText (l : List Char) : Option (List Char) :=
  match l with
  | [] => none
  | c :: _ =>
    if pyIsSpace c then
      let w := (l.takeWhile pyIsSpace).length
      if w < l.length then some (l.drop w)
      else if l.length ≥ 2 then some (l.drop (l.length - 1))
      else none
    else none

/-- `re.match(r'^([\s]*)[-*+]\s+(.+)$', line)`: indent width `// 2` and
item text. -/
def ulistItem (l : List Char) : Option (Nat × List Char) :=
  let ws := l.takeWhile pyIsSpace
  match l.drop ws.length with
  | m :: rest =>
    if m = '-' ∨ m = '*' ∨ m = '+' then
      (spaceThenText rest).map (fun t => (ws.length / 2, t))
    else none
  | [] => none

/-- `re.match(r'^[\s]*\d+\.\s+', line)`: leading whitespace, a digit
run, a dot, then at least one whitespace char. -/
def olistCond (l : List Char) : Bool :=
  let rest := l.dropWhile pyIsSpace
  let ds := rest.takeWhile Char.isDigit
  match rest.drop ds.length with
  | '.' :: c :: _ => ds.length ≥ 1 ∧ pyIsSpace c
  | _ => false

/-- `re.match(r'^([\s]*)\d+\.\s+(.+)$', line)`. -/
def olistItem (l : List Char) : Option (Nat × List Char) :=
  let ws := l.takeWhile pyIsSpace
  let rest := l.drop ws.length
  let ds := rest.takeWhile Char.isDigit
  if ds.length ≥ 1 then
    match rest.drop ds.length with
    | '.' :: tail => (spaceThenText tail).map (fun t => (ws.length / 2, t))
    | _ => none
  else none

/-- `re.sub(r'^>\s*', '', line)` applied to a `>`-prefixed line. -/
def quoteText (l : List Char) : List Char :=
  match l with
  | '>' :: rest => rest.dropWhile pyIsSpace
  | _ => l

/-! ### Reverse converter: tables -/

/-- Split on `'|'` (Python `str.split('|')`): at least one part. -/
def splitOnPipe : List Char → List (List Char)
  | [] => [[]]
  | '|' :: rest => [] :: splitOnPipe rest
  | c :: rest =>
    match splitOnPipe rest with
    | h :: t => (c :: h) :: t
    | [] => [[c]]

/-- `_parse_table_row`: strip the line, drop one leading and one
trailing pipe, split on pipes and strip each cell. -/
def parseTableRow (l : List Char) : List String :=
  let t := pyStripL l
  let t := if isPrefixL ['|'] t then t.drop 1 else t
  let t := if t.reverse.head? = some '|' then t.dropLast else t
  (splitOnPipe t).map (fun c => ⟨pyStripL c⟩)

/-- `re.match(r'^\|[\s\-:|]+\|$', line)`: a pipe, one or more separator
characters, a closing pipe, end of line. -/
def isSepRow (l : List Char) : Bool :=
  l.length ≥ 3 ∧ l.head? = some '|' ∧ l.reverse.head? = some '|' ∧
    (l.drop 1).dropLast.all (fun c => pyIsSpace c ∨ c = '-' ∨ c = ':' ∨ c = '|')

/-- `_add_table` on the collected run of `|`-lines: fewer than two lines
add nothing; otherwise the first row gives the bold header cells, an
optional separator row is skipped, and each data row is truncated or
padded to the header column count (unwritten cells stay empty). -/
def addTable : List (List Char) → List DocBlock
  | [] => []
  | [_] => []
  | l0 :: l1 :: rest =>
    let headerCells := parseTableRow l0
    if headerCells = [] then []
    else
      let dataLines := if isSepRow l1 then rest else l1 :: rest
      let dataRows := (dataLines.map parseTableRow).filter (· ≠ [])
      let numCols := headerCells.length
      [.table headerCells
        (dataRows.map (fun r => r.take numCols ++ List.replicate (numCols - r.length) "")),
       .blankPara]

/-! ### Reverse converter: the main loop of `_convert_markdown_to_doc`

The body of the `while i < len(lines)` loop for positions `i > 0` (the
header-stripping branch is guarded by `i == 0` and therefore lives in
`convertMarkdownToDoc` below). Every branch advances the cursor past at
least the current line. -/

def goBlocks : List (List Char) → List DocBlock
  | [] => []
  | line :: rest =>
    if isPrefixL "```".data line then
      let codeLines := rest.takeWhile (fun l => !isPrefixL "```".data l)
      (codeLines.map (fun l => DocBlock.codePara ⟨l⟩)) ++
        goBlocks ((rest.drop codeLines.length).drop 1)
    else if isPrefixL ['|'] line ∧ (line.drop 1).contains '|' then
      addTable (line :: rest.takeWhile (isPrefixL ['|'])) ++
        goBlocks (rest.drop (rest.takeWhile (isPrefixL ['|'])).length)
    else
      match headingMatch line with
      | some (k, text) =>
        .heading (min k 9) (addFormattedText ⟨text⟩) :: goBlocks rest
      | none =>
        if isHRuleLine line then .hrule :: goBlocks rest
        else if ulistCond line then
          (((line :: rest.takeWhile ulistCond).filterMap ulistItem).map
              (fun p => DocBlock.bulletItem p.1 (addFormattedText ⟨p.2⟩))) ++
            goBlocks (rest.drop (rest.takeWhile ulistCond).length)
        else if olistCond line then
          (((line :: rest.takeWhile olistCond).filterMap olistItem).map
              (fun p => DocBlock.numberItem p.1 (addFormattedText ⟨p.2⟩))) ++
            goBlocks (rest.drop (rest.takeWhile olistCond).length)
        else if isPrefixL ['>'] line then
          ((line :: rest.takeWhile (isPrefixL ['>'])).map
              (fun l => DocBlock.quotePara ⟨quoteText l⟩)) ++
            goBlocks (rest.drop (rest.takeWhile (isPrefixL ['>'])).length)
        else if pyStripL line = [] then goBlocks rest
        else .para (addFormattedText ⟨line⟩) :: goBlocks rest
termination_by l => l.length
decreasing_by all_goals (simp [List.length_drop]; try omega)

/-- `_convert_markdown_to_doc`: split on newlines; at position 0 only,
if the first line starts with `"# "` and the second with
`"> Converted from"`, skip to and past the next line equal to `"---"`
and one following blank line, then run the main loop. -/
def convertMarkdownToDoc (content : String) : List DocBlock :=
  match splitLinesL content.data with
  | [] => []
  | line0 :: rest =>
    if isPrefixL "# ".data line0 &&
        (match rest.head? with
         | some l1 => isPrefixL "> Converted from".data l1
         | none => false) then
      let skipped := (rest.dropWhile (fun l => l ≠ "---".data)).drop 1
      goBlocks
        (match skipped with
         | b :: t => if pyStripL b = [] then t else skipped
         | [] => [])
    else goBlocks (line0 :: rest)

/-! ### Base converter (`base.py`)

`BaseConverter.convert` caches the extraction; `to_markdown` / `to_json`
both go through it. The extraction result and the metadata it assigns to
`self._metadata` are modelled as fixed values `ex`/`exM` (extraction is
deterministic and side-effect-free on the source); the wall-clock
timestamp each renderer embeds is an explicit argument. -/

/-- The mutable converter state: cached content, `_metadata`, and a
ghost counter of `_extract_content` invocations. -/
structure ConvState (C M : Type) where
  content : Option C
  metadata : M
  extractCount : Nat
deriving Repr

/-- `BaseConverter.convert`. -/
def bcConvert {C M : Type} (ex : C) (exM : M) (s : ConvState C M) :
    C × ConvState C M :=
  match s.content with
  | some c => (c, s)
  | none => (ex, ⟨some ex, exM, s.extractCount + 1⟩)

/-- The three-line provenance header prepended by `to_markdown`. -/
def mkMdHeader (filename ftype ts : String) : String :=
  "# " ++ filename ++ "\n\n" ++
    "> Converted from " ++ ftype ++ " on " ++ ts ++ "\n\n" ++
    "---\n\n"

/-- `BaseConverter.to_markdown` as a state transformer. -/
def bcToMarkdown {C M : Type} (filename ftype : String) (fmt : C → String)
    (ex : C) (exM : M) (ts : String) (s : ConvState C M) :
    String × ConvState C M :=
  let (c, s') := bcConvert ex exM s
  (mkMdHeader filename ftype ts ++ fmt c, s')

/-- The JSON envelope built by `_build_json_structure` (before
serialization). -/
structure JsonEnvelope (C M : Type) where
  filename : String
  ftype : String
  convertedAt : String
  content : C
  metadata : M
deriving Repr

/-- `BaseConverter.to_json` as a state transformer; `jdump` stands for
`json.dumps` applied to the envelope. -/
def bcToJson {C M : Type} (filename ftype : String)
    (jdump : JsonEnvelope C M → String) (ex : C) (exM : M) (ts : String)
    (s : ConvState C M) : String × ConvState C M :=
  let (c, s') := bcConvert ex exM s
  (jdump ⟨filename, ftype, ts, c, s'.metadata⟩, s')

/-- One renderer call with the timestamp the clock shows at that call. -/
inductive RenderCall
  | md (ts : String)
  | js (ts : String)

/-- Run a sequence of renderer calls against one converter instance. -/
def runCalls {C M : Type} (filename ftype : String) (fmt : C → String)
    (jdump : JsonEnvelope C M → String) (ex : C) (exM : M) :
    List RenderCall → ConvState C M → List String × ConvState C M
  | [], s => ([], s)
  | .md ts :: rest, s =>
    let (out, s') := bcToMarkdown filename ftype fmt ex exM ts s
    let (outs, s'') := runCalls filename ftype fmt jdump ex exM rest s'
    (out :: outs, s'')
  | .js ts :: rest, s =>
    let (out, s') := bcToJson filename ftype jdump ex exM ts s
    let (outs, s'') := runCalls filename ftype fmt jdump ex exM rest s'
    (out :: outs, s'')

/-- The state of a freshly constructed converter (`_content = None`,
`_metadata = {}`). -/
def freshState {C M : Type} (m0 : M) : ConvState C M := ⟨none, m0, 0⟩

/-! ### Word-processor extractor (`docx_converter.py`) -/

/-- A heading entry of the content model (`level` is the raw parsed
integer, which the source stores without clamping). -/
structure DocxHeading where
  level : Int
  text : String
deriving DecidableEq, Repr

/-- A paragraph entry of the content model. -/
structure DocxParagraph where
  text : String
  style : String
deriving DecidableEq, Repr

/-- A table of the content model. -/
structure DocxTable where
  headers : List String
  rows : List (List String)
deriving DecidableEq, Repr

/-- The extracted content model. -/
structure DocxContent where
  text : String
  paragraphs : List DocxParagraph
  tables : List DocxTable
  headings : List DocxHeading
deriving DecidableEq, Repr

/-- One child element of the document body, in document order: a
paragraph with its resolved text and style name, or a table with the raw
text of each cell. -/
inductive BodyElem
  | par (text : String) (styleName : String)
  | tbl (cells : List (List String))

/-- `int(style_name.replace('Heading ', ''))` with `ValueError ↦ 1`:
the raw heading level used by both the extractor and the renderer. -/
def parseHeadingLevel (styleName : String) : Int :=
  match pyInt ⟨pyReplace "Heading ".data [] styleName.data⟩ with
  | some n => n
  | none => 1

/-- `DocxConverter._extract_table`: every row (stripped cell text) is
recorded; the first row is additionally copied into `headers`. -/
def docxExtractTable (cells : List (List String)) : DocxTable :=
  let rows := cells.map (fun row => row.map pyStrip)
  { headers := (rows.head?).getD [], rows := rows }

/-- Accumulated extraction state of the body-element walk (the
`full_text_parts` list is kept separately and joined at the end). -/
structure DocxAcc where
  paragraphs : List DocxParagraph
  tables : List DocxTable
  headings : List DocxHeading
  textParts : List String
deriving DecidableEq, Repr

/-- The element walk of `DocxConverter._extract_content`: a paragraph is
skipped when empty after stripping; a `Heading*`-styled one is also
recorded in `headings` with its raw parsed level; a table element is
extracted by `_extract_table`. -/
def docxExtractAux : List BodyElem → DocxAcc
  | [] => ⟨[], [], [], []⟩
  | .par text styleName :: rest =>
    let r := docxExtractAux rest
    let t := pyStrip text
    if t ≠ "" then
      { r with
        paragraphs := ⟨t, styleName⟩ :: r.paragraphs,
        headings :=
          if isPrefixL "Heading".data styleName.data then
            ⟨parseHeadingLevel styleName, t⟩ :: r.headings
          else r.headings,
        textParts := t :: r.textParts }
    else r
  | .tbl cells :: rest =>
    let r := docxExtractAux rest
    { r with tables := docxExtractTable cells :: r.tables }

/-- `DocxConverter._extract_content` over the body element walk. -/
def docxExtract (els : List BodyElem) : DocxContent :=
  let r := docxExtractAux els
  { text := joinSep "\n\n" r.textParts, paragraphs := r.paragraphs,
    tables := r.tables, headings := r.headings }

/-- `'#' * level` (Python string repetition: empty for `level ≤ 0`). -/
def hashRepeat (level : Int) : String :=
  ⟨List.replicate level.toNat '#'⟩

/-- The renderer's own level computation: `int(...)` then `min(_, 6)`,
or 1 on `ValueError` (the `try`/`except` of `_format_as_markdown`). -/
def renderHeadingLevel (styleName : String) : Int :=
  match pyInt ⟨pyReplace "Heading ".data [] styleName.data⟩ with
  | some n => min n 6
  | none => 1

/-- The paragraph branch of `DocxConverter._format_as_markdown`. -/
def renderDocxPara (p : DocxParagraph) : String :=
  if isPrefixL "Heading".data p.style.data then
    hashRepeat (renderHeadingLevel p.style) ++ " " ++ p.text
  else p.text

/-- The table block of `_format_as_markdown` (the same code appears in
the word, PDF and slide-deck renderers): empty line, header row and
separator row when headers are present, data rows skipping the
duplicated first row, empty line. -/
def mdTableParts (headers : List String) (rows : List (List String)) :
    List String :=
  if rows ≠ [] then
    [""] ++
      (if headers ≠ [] then
        ["| " ++ joinSep " | " headers ++ " |",
         "| " ++ joinSep " | " (List.replicate headers.length "---") ++ " |"]
      else []) ++
      ((rows.drop (if headers ≠ [] then 1 else 0)).map
        (fun row => "| " ++ joinSep " | " row ++ " |")) ++
      [""]
  else []

/-- `DocxConverter._format_as_markdown` as its `md_parts` list. -/
def docxMdParts (c : DocxContent) : List String :=
  c.paragraphs.map renderDocxPara ++
    (c.tables.map (fun t => mdTableParts t.headers t.rows)).flatten

/-- Number of leading `'#'` characters of a rendered Markdown line. -/
def leadingHashes (s : String) : Nat :=
  (s.data.takeWhile (· = '#')).length

/-! ### PDF extractor (`pdf_converter.py`): per-page table extraction -/

/-- A table of the PDF content model. -/
structure PdfTable where
  headers : List String
  rows : List (List String)
deriving DecidableEq, Repr

/-- `str(cell) if cell else ""`: `pdfplumber` cells are strings or
`None`; a `None` (or otherwise falsy, i.e. empty) cell becomes `""`. -/
def pdfCellStr (c : Option String) : String :=
  c.getD ""

/-- The per-detected-table branch of `PdfConverter._extract_content`:
a nonempty table records its stringified first row as `headers` and all
rows (the first included) in `rows`; an empty one is not recorded. -/
def pdfExtractTable (table : List (List (Option String))) :
    Option PdfTable :=
  match table with
  | [] => none
  | row0 :: _ =>
    some { headers := row0.map pdfCellStr,
           rows := table.map (fun r => r.map pdfCellStr) }

/-! ### Slide-deck extractor (`pptx_converter.py`): table shapes -/

/-- A table found in a table-bearing shape. -/
structure PptxTable where
  headers : List String
  rows : List (List String)
deriving DecidableEq, Repr

/-- The table branch of `PptxConverter._extract_content`: cell texts
are stripped; an empty table is not recorded as a shape; otherwise
`headers` is the first row, and `rows` keeps every row. -/
def pptxExtractTable (cellTexts : List (List String)) : Option PptxTable :=
  let rows := cellTexts.map (fun r => r.map pyStrip)
  match rows with
  | [] => none
  | row0 :: _ => some { headers := row0, rows := rows }

/-! ### Spreadsheet/CSV extractor (`xlsx_converter.py`) -/

/-- One sheet of the extracted content model. -/
structure SheetData where
  name : String
  headers : List String
  rows : List (List String)
  rowCount : Nat
  columnCount : Nat
deriving DecidableEq, Repr

/-- `XlsxConverter._extract_csv`: every reader row is kept (no empty-row
skipping) and `headers` is the physical first row, whatever it holds. -/
def extractCsvSheet (csvRows : List (List String)) : SheetData :=
  let headers := (csvRows.head?).getD []
  { name := "Sheet1",
    headers := headers,
    rows := csvRows,
    rowCount := csvRows.length,
    columnCount := if headers ≠ [] then headers.length else 0 }

/-- `str(cell) if cell is not None else ""`; a cell is `some s` when the
worksheet holds a value whose `str()` is `s`. -/
def xlsxCellStr (c : Option String) : String :=
  c.getD ""

/-- A stringified row is "completely empty" when no cell string is
truthy (`not any(row_data)`). -/
def anyNonEmpty (row : List String) : Bool :=
  row.any (fun s => s ≠ "")

/-- The `enumerate(sheet.iter_rows(...))` loop of `_extract_xlsx`:
`i` is the physical row index; empty rows are skipped, and `headers` is
assigned only when the row at physical index 0 survives the skip. -/
def xlsxLoop : Nat → List (List (Option String)) → List String →
    List (List String) → List String × List (List String)
  | _, [], headers, acc => (headers, acc)
  | i, row :: rest, headers, acc =>
    let rowData := row.map xlsxCellStr
    if anyNonEmpty rowData then
      xlsxLoop (i + 1) rest (if i = 0 then rowData else headers)
        (acc ++ [rowData])
    else
      xlsxLoop (i + 1) rest headers acc

/-- The per-sheet part of `XlsxConverter._extract_xlsx`. -/
def extractXlsxSheet (name : String)
    (sheetRows : List (List (Option String))) : SheetData :=
  let hr := xlsxLoop 0 sheetRows [] []
  { name := name,
    headers := hr.1,
    rows := hr.2,
    rowCount := hr.2.length,
    columnCount := if hr.1 ≠ [] then hr.1.length else 0 }

/-! ### Spreadsheet JSON structure (`XlsxConverter._build_json_structure`) -/

/-- Python `dict` insertion with insertion-order semantics: an existing
key keeps its position and gets the new value, a new key is appended. -/
def dictInsert (d : List (String × String)) (k v : String) :
    List (String × String) :=
  if d.any (fun p => p.1 = k) then
    d.map (fun p => if p.1 = k then (k, v) else p)
  else d ++ [(k, v)]

/-- One `record`: the row zipped against the headers, skipping empty
header names; a missing cell (row shorter than headers) becomes `""`. -/
def recordOf (headers : List String) (row : List String) :
    List (String × String) :=
  (headers.enum).foldl
    (fun rec p =>
      if p.2 ≠ "" then dictInsert rec p.2 (row.getD p.1 "") else rec)
    []

/-- The per-sheet JSON value: with a `records` array when the sheet has
headers and more than one row, else only `raw_rows`. -/
inductive SheetJson
  | withRecords (name : String) (headers : List String)
      (records : List (List (String × String)))
      (rawRows : List (List String))
  | rawOnly (name : String) (rawRows : List (List String))
deriving DecidableEq, Repr

/-- The per-sheet branch of `XlsxConverter._build_json_structure`. -/
def buildSheetJson (s : SheetData) : SheetJson :=
  if s.headers ≠ [] ∧ s.rows.length > 1 then
    .withRecords s.name s.headers
      ((s.rows.drop 1).map (recordOf s.headers)) s.rows
  else
    .rawOnly s.name s.rows

/-! ### Vision analysis (`vision/` and `image_converter.py`)

The three wire providers share one code shape; the external world
(library imports, environment variables, API responses) is an explicit
environment, and the API call outcome is a parameter. -/

/-- A Python value as produced by `json.loads` (the `analysis`). -/
inductive PyVal
  | jnull
  | jbool (b : Bool)
  | jnum (n : Int)
  | jstr (s : String)
  | jarr (l : List PyVal)
  | jobj (l : List (String × PyVal))

/-- Python truthiness of such a value. -/
def pyTruthy : PyVal → Bool
  | .jnull => false
  | .jbool b => b
  | .jnum n => n ≠ 0
  | .jstr s => s ≠ ""
  | .jarr l => !l.isEmpty
  | .jobj l => !l.isEmpty

/-- Truthiness of an `Optional[str]`. -/
def truthyStr : Option String → Bool
  | some s => s ≠ ""
  | none => false

/-- The `ImageAnalysisResult` dataclass of `vision/base_provider.py`. -/
structure ImageAnalysisResult where
  success : Bool
  analysis : Option PyVal
  error : Option String
  providerName : String
  modelUsed : String

/-- The dictionary built by `ImageAnalysisResult.to_dict`: `success`,
`provider` and `model` are always present; `analysis` only when
`self.success and self.analysis` is truthy; `error` only when
`self.error` is truthy. -/
structure ResultDict where
  success : Bool
  provider : String
  model : String
  analysis : Option PyVal
  error : Option String

/-- `ImageAnalysisResult.to_dict`. -/
def toDict (r : ImageAnalysisResult) : ResultDict :=
  { success := r.success,
    provider := r.providerName,
    model := r.modelUsed,
    analysis :=
      if r.success && (match r.analysis with
                       | some v => pyTruthy v
                       | none => false) then r.analysis else none,
    error :=
      if truthyStr r.error then r.error else none }

/-- The three concrete providers. -/
inductive ProviderId
  | openai
  | anthropic
  | gemini
deriving DecidableEq, Repr

/-- `provider_name` property. -/
def providerName : ProviderId → String
  | .openai => "openai"
  | .anthropic => "anthropic"
  | .gemini => "gemini"

/-- `default_model` property. -/
def defaultModel : ProviderId → String
  | .openai => "gpt-4o"
  | .anthropic => "claude-3-5-sonnet-20241022"
  | .gemini => "gemini-1.5-pro"

/-- The `"X library not installed"` message of each provider. -/
def libMissingMsg : ProviderId → String
  | .openai => "OpenAI library not installed. Run: pip install openai"
  | .anthropic => "Anthropic library not installed. Run: pip install anthropic"
  | .gemini =>
    "Google Generative AI library not installed. Run: pip install google-generativeai"

/-- The API-error message prefix of each provider. -/
def apiErrPrefix : ProviderId → String
  | .openai => "OpenAI API error: "
  | .anthropic => "Anthropic API error: "
  | .gemini => "Gemini API error: "

/-- Outcome of the external part of `analyze_image`: the vision
library's import, the API call, and `json.loads` on the (fence-stripped)
response text. -/
inductive ApiOutcome
  | importErr
  | apiErr (msg : String)
  | jsonErr (msg : String)
  | parsed (v : PyVal)

/-- `analyze_image` of the selected provider, called (as the image
converter does) without an explicit prompt or model: each failure arm
returns a typed result, the success arm carries the parsed analysis. -/
def analyzeImage (pid : ProviderId) (o : ApiOutcome) : ImageAnalysisResult :=
  match o with
  | .importErr =>
    ⟨false, none, some (libMissingMsg pid), providerName pid, defaultModel pid⟩
  | .apiErr m =>
    ⟨false, none, some (apiErrPrefix pid ++ m), providerName pid, defaultModel pid⟩
  | .jsonErr m =>
    ⟨false, none, some ("Failed to parse JSON response: " ++ m),
      providerName pid, defaultModel pid⟩
  | .parsed v =>
    ⟨true, some v, none, providerName pid, defaultModel pid⟩

/-- The environment `VisionProviderFactory.get_provider` and
`ImageConverter._perform_vision_analysis` read. -/
structure VisionEnv where
  /-- whether `from .vision import get_vision_provider` succeeded. -/
  visionAvailable : Bool
  /-- `os.environ.get("VISION_ENABLED")`. -/
  visionEnabledVar : Option String
  /-- `os.environ.get("VISION_PROVIDER")`. -/
  visionProviderVar : Option String
  /-- the `vision_provider` constructor argument of `ImageConverter`. -/
  providerArg : Option String
  /-- whether each provider module's import succeeds. -/
  importable : ProviderId → Bool
  /-- the provider-specific API-key environment variable. -/
  envApiKey : ProviderId → Option String

/-- `VisionProviderFactory._try_import_provider`. -/
def tryImportProvider (env : VisionEnv) (nm : String) : Option ProviderId :=
  if nm = "openai" ∧ env.importable .openai then some .openai
  else if nm = "anthropic" ∧ env.importable .anthropic then some .anthropic
  else if nm = "gemini" ∧ env.importable .gemini then some .gemini
  else none

/-- `VisionProviderFactory.get_provider` called (as the image converter
does) with no explicit API key: `.error` models the raised
`ValueError` for an unknown provider; `.ok none` models the `None`
returns (vision disabled, or the constructor's missing-key `ValueError`
swallowed by the factory). -/
def factoryGetProvider (env : VisionEnv) (pname : Option String) :
    Except String (Option ProviderId) :=
  let nm := pyLower ((pname.orElse fun _ => env.visionProviderVar).getD "openai")
  if pyLower ((env.visionEnabledVar).getD "true") = "false" then .ok none
  else
    match tryImportProvider env nm with
    | none =>
      .error ("Unknown vision provider: " ++ nm ++ ". Available providers: []")
    | some pid =>
      if truthyStr (env.envApiKey pid) then .ok (some pid) else .ok none

/-- The value stored in `content["vision_analysis"]`: one of the literal
failure dictionaries built in `_perform_vision_analysis` (each with
`success=False`, an `error` string and `provider=model=None`), or a
provider result serialized by `to_dict`. -/
inductive VisionAnalysisValue
  | localFailure (error : String)
  | providerResult (d : ResultDict)

/-- `ImageConverter._perform_vision_analysis`: every branch, including
the `except Exception` wrapper around provider selection and analysis,
returns a dictionary; nothing escapes. -/
def performVisionAnalysis (env : VisionEnv)
    (outcome : ProviderId → ApiOutcome) : VisionAnalysisValue :=
  if ¬ env.visionAvailable then
    .localFailure "Vision module not available"
  else if pyLower ((env.visionEnabledVar).getD "true") = "false" then
    .localFailure "Vision analysis disabled via VISION_ENABLED=false"
  else
    match factoryGetProvider env env.providerArg with
    | .error e => .localFailure ("Vision analysis failed: " ++ e)
    | .ok none =>
      .localFailure "No vision provider available. Set API key for your preferred provider."
    | .ok (some pid) => .providerResult (toDict (analyzeImage pid (outcome pid)))

/-- `success` of the stored `vision_analysis` dictionary. -/
def vavSuccess : VisionAnalysisValue → Bool
  | .localFailure _ => false
  | .providerResult d => d.success

/-- `error` of the stored `vision_analysis` dictionary (`none` when the
key is absent). -/
def vavError : VisionAnalysisValue → Option String
  | .localFailure e => some e
  | .providerResult d => d.error

/-! ## Claims -/

/-- The spec's sample round-trip input (§8 of the spec). -/
def sampleRoundTripInput : String :=
  "# Title\n\n> Converted from word_document on 2024-01-01 00:00:00 UTC\n\n---\n\n## Heading\n\nSome **bold** text.\n\n| A | B |\n| --- | --- |\n| 1 | 2 |\n"

/-- Claim C1: the reverse converter does NOT strip the provenance header
from the spec's sample round-trip input (nor from any forward
`to_markdown` output). The strip branch requires line 1 to start with
`"> Converted from"`, but `to_markdown` always places a blank line
there, so on the sample the provenance block survives as a `"Title"`
heading, an italic blockquote paragraph and a horizontal rule in front
of the body content; the second conjunct shows line 1 of a forward
header is the empty line. -/
theorem c1_header_not_stripped :
    convertMarkdownToDoc sampleRoundTripInput =
      [.heading 1 [.plain "Title"],
       .quotePara "Converted from word_document on 2024-01-01 00:00:00 UTC",
       .hrule,
       .heading 2 [.plain "Heading"],
       .para [.plain "Some ", .bold "bold", .plain " text."],
       .table ["A", "B"] [["1", "2"]],
       .blankPara] ∧
    (splitLinesL (mkMdHeader "report.docx" "word_document"
        "2024-01-01 00:00:00 UTC").data)[1]? = some [] := by
  constructor
  · have hlines : splitLinesL sampleRoundTripInput.data =
        ["# Title".data, "".data,
         "> Converted from word_document on 2024-01-01 00:00:00 UTC".data,
         "".data, "---".data, "".data, "## Heading".data, "".data,
         "Some **bold** text.".data, "".data, "| A | B |".data,
         "| --- | --- |".data, "| 1 | 2 |".data, "".data] := by decide
    simp only [convertMarkdownToDoc, hlines]
    simp +decide [goBlocks, addTable]
  · decide

/-- Claim C9: an input whose fenced code block is never closed parses to
the end of input, every captured line becoming one code-styled
paragraph: from the opening-fence line, when no later line starts with
a triple backtick, the remaining lines are emitted verbatim as
`CodeBlock` paragraphs and the (total) parse adds nothing else. -/
theorem c9_unterminated_fence_consumes_all (line : List Char)
    (rest : List (List Char))
    (hopen : isPrefixL "```".data line = true)
    (hnoclose : ∀ l ∈ rest, isPrefixL "```".data l = false) :
    goBlocks (line :: rest) = rest.map (fun l => DocBlock.codePara ⟨l⟩) := by
  rw [goBlocks]
  rw [if_pos hopen]
  have htw : rest.takeWhile (fun l => !isPrefixL "```".data l) = rest := by
    rw [List.takeWhile_eq_self_iff]
    intro l hl
    simp [hnoclose l hl]
  rw [htw]
  simp [goBlocks]

/-- Claim C9 witness: the concrete unterminated-fence input from the
development notes. -/
theorem c9_witness :
    goBlocks ["```py".data, "code1".data, "code2".data] =
      [DocBlock.codePara "code1", DocBlock.codePara "code2"] := by
  have h := c9_unterminated_fence_consumes_all "```py".data
    ["code1".data, "code2".data] (by decide) (by decide)
  rw [h]
  rfl

/-- Claim C2 counterexample: a paragraph styled `"Heading 7"` is
recorded in the content model's `headings` with level 7 — outside
`[1,6]` — because `_extract_content` stores the parsed level without
clamping; and a `"Heading 0"` paragraph renders with zero `'#'`
characters, so the Markdown `'#'`-prefix count is not clamped into
`[1,6]` either. -/
theorem c2_counterexample :
    (docxExtract [.par "T" "Heading 7"]).headings = [⟨7, "T"⟩] ∧
    ¬ (∀ h ∈ (docxExtract [.par "T" "Heading 7"]).headings,
        1 ≤ h.level ∧ h.level ≤ 6) ∧
    leadingHashes (renderDocxPara ⟨"T", "Heading 0"⟩) = 0 := by
  refine ⟨by decide, ?_, by decide⟩
  intro hall
  exact absurd (hall ⟨7, "T"⟩ (by decide)) (by decide)

/-- The headings entry a body paragraph element contributes (none for
tables and for paragraphs that are empty after stripping or whose style
does not start with `Heading`). -/
def headingSpec : BodyElem → Option DocxHeading
  | .par text styleName =>
    if pyStrip text ≠ "" ∧ isPrefixL "Heading".data styleName.data then
      some ⟨parseHeadingLevel styleName, pyStrip text⟩
    else none
  | .tbl _ => none

/-- `(replicate k '#') ++ ' ' :: rest` has exactly `k` leading hashes. -/
theorem takeWhile_hash_replicate (k : Nat) (rest : List Char) :
    (List.replicate k '#' ++ ' ' :: rest).takeWhile (· = '#') =
      List.replicate k '#' := by
  induction k with
  | zero => simp [List.takeWhile]
  | succ n ih => simp [List.replicate_succ, List.takeWhile, ih]

/-- Claim C2 as amended: for every body walk, the content model records
each `Heading*`-styled nonempty paragraph with its RAW parsed level
(default 1 on a non-numeric suffix, no clamping), while the rendered
Markdown line of such a paragraph carries `min(level, 6)` leading `'#'`
characters — clamped above at 6 but not below. -/
theorem c2_heading_levels :
    (∀ els : List BodyElem,
      (docxExtract els).headings = els.filterMap headingSpec) ∧
    (∀ styleName text : String,
      isPrefixL "Heading".data styleName.data = true →
      leadingHashes (renderDocxPara ⟨text, styleName⟩) =
        (min (parseHeadingLevel styleName) 6).toNat) ∧
    (∀ styleName : String,
      pyInt ⟨pyReplace "Heading ".data [] styleName.data⟩ = none →
      parseHeadingLevel styleName = 1) := by
  refine ⟨?_, ?_, ?_⟩
  · intro els
    show (docxExtractAux els).headings = els.filterMap headingSpec
    induction els with
    | nil => rfl
    | cons e rest ih =>
      cases e with
      | par text styleName =>
        simp only [docxExtractAux, headingSpec, List.filterMap_cons]
        by_cases ht : pyStrip text ≠ ""
        · by_cases hh : isPrefixL "Heading".data styleName.data = true
          · simp [ht, hh, ih]
          · simp [ht, hh, ih]
        · simp [ht, ih]
      | tbl cells =>
        simp [docxExtractAux, headingSpec, List.filterMap_cons, ih]
  · intro styleName text hpref
    have hlvl : renderHeadingLevel styleName = min (parseHeadingLevel styleName) 6 := by
      unfold renderHeadingLevel parseHeadingLevel
      cases pyInt ⟨pyReplace "Heading ".data [] styleName.data⟩ <;> simp
    unfold renderDocxPara leadingHashes
    rw [if_pos hpref, hlvl]
    have hdata : (hashRepeat (min (parseHeadingLevel styleName) 6) ++ " " ++ text).data =
        List.replicate (min (parseHeadingLevel styleName) 6).toNat '#' ++
          ' ' :: text.data := by
      rw [String.data_append, String.data_append, List.append_assoc]
      show _ ++ ([' '] ++ _) = _
      rw [List.singleton_append]
      rfl
    rw [hdata, takeWhile_hash_replicate, List.length_replicate]
  · intro styleName hp
    simp [parseHeadingLevel, hp]

/-- Claim C2 witness: concrete instances of the amended statement —
`"Heading 3"` is stored raw as 3 and rendered with 3 hashes,
`"Heading 9"` renders with `min 9 6 = 6` hashes, and `"Heading X"`
parses to the default level 1. -/
theorem c2_witness :
    (docxExtract [.par "T" "Heading 3"]).headings =
      [⟨parseHeadingLevel "Heading 3", pyStrip "T"⟩] ∧
    leadingHashes (renderDocxPara ⟨"X", "Heading 9"⟩) =
      (min (parseHeadingLevel "Heading 9") 6).toNat ∧
    parseHeadingLevel "Heading X" = 1 := by
  refine ⟨?_, ?_, ?_⟩
  · rw [c2_heading_levels.1 [.par "T" "Heading 3"]]
    decide
  · exact c2_heading_levels.2.1 "Heading 9" "X" (by decide)
  · exact c2_heading_levels.2.2 "Heading X" (by decide)

/-- Claim C3 counterexample: the CSV path skips nothing — an entirely
empty first row is kept in `rows` AND becomes `headers` (instead of the
first non-empty row); and in the workbook path a sheet whose first
physical row is empty gets EMPTY headers, not the first surviving row,
because the header assignment is tied to physical index 0. -/
theorem c3_counterexample :
    (extractCsvSheet [["", ""], ["a", "b"]]).rows = [["", ""], ["a", "b"]] ∧
    (extractCsvSheet [["", ""], ["a", "b"]]).headers = ["", ""] ∧
    (extractXlsxSheet "S" [[none, none], [some "a", some "b"]]).rows =
      [["a", "b"]] ∧
    (extractXlsxSheet "S" [[none, none], [some "a", some "b"]]).headers = [] := by
  decide

/-- After the first physical row, `xlsxLoop` never re-assigns headers. -/
theorem xlsxLoop_headers_stable (rows : List (List (Option String))) :
    ∀ (i : Nat) (headers : List String) (acc : List (List String)),
      i ≠ 0 → (xlsxLoop i rows headers acc).1 = headers := by
  induction rows with
  | nil => intro i headers acc _; rfl
  | cons row rest ih =>
    intro i headers acc hi
    unfold xlsxLoop
    by_cases hrow : anyNonEmpty (row.map xlsxCellStr) = true
    · rw [if_pos hrow, if_neg hi]
      exact ih (i + 1) headers _ (Nat.succ_ne_zero i)
    · rw [if_neg hrow]
      exact ih (i + 1) headers acc (Nat.succ_ne_zero i)

/-- `xlsxLoop` appends exactly the stringified non-empty rows. -/
theorem xlsxLoop_rows (rows : List (List (Option String))) :
    ∀ (i : Nat) (headers : List String) (acc : List (List String)),
      (xlsxLoop i rows headers acc).2 =
        acc ++ (rows.map (fun r => r.map xlsxCellStr)).filter anyNonEmpty := by
  induction rows with
  | nil => intro i headers acc; simp [xlsxLoop]
  | cons row rest ih =>
    intro i headers acc
    unfold xlsxLoop
    by_cases hrow : anyNonEmpty (row.map xlsxCellStr) = true
    · rw [if_pos hrow, ih, List.map_cons, List.filter_cons, if_pos hrow]
      simp
    · rw [if_neg hrow, ih, List.map_cons, List.filter_cons, if_neg hrow]

/-- Claim C3 as amended: the workbook path skips rows that are entirely
empty after stringification and takes `headers` from the physical first
row exactly when that row is non-empty (a sheet whose first physical
row is empty gets empty headers); the CSV path skips no rows at all and
always takes the physical first row — empty or not — as `headers`. -/
theorem c3_row_filtering :
    (∀ csvRows : List (List String),
      (extractCsvSheet csvRows).rows = csvRows ∧
      (extractCsvSheet csvRows).headers = (csvRows.head?).getD []) ∧
    (∀ (name : String) (rows : List (List (Option String))),
      (extractXlsxSheet name rows).rows =
        (rows.map (fun r => r.map xlsxCellStr)).filter anyNonEmpty ∧
      (extractXlsxSheet name rows).headers =
        (match rows.head? with
         | some r0 =>
           if anyNonEmpty (r0.map xlsxCellStr) then r0.map xlsxCellStr else []
         | none => [])) := by
  constructor
  · intro csvRows
    exact ⟨rfl, rfl⟩
  · intro name rows
    constructor
    · show (xlsxLoop 0 rows [] []).2 = _
      rw [xlsxLoop_rows]
      rfl
    · show (xlsxLoop 0 rows [] []).1 = _
      cases rows with
      | nil => rfl
      | cons r0 rest =>
        unfold xlsxLoop
        by_cases hrow : anyNonEmpty (r0.map xlsxCellStr) = true
        · rw [if_pos hrow]
          rw [xlsxLoop_headers_stable rest (0 + 1) _ _ (Nat.succ_ne_zero 0)]
          simp [hrow]
        · rw [if_neg hrow]
          rw [xlsxLoop_headers_stable rest (0 + 1) _ _ (Nat.succ_ne_zero 0)]
          simp [hrow]

/-- Claim C4: in the word, PDF and slide-deck extractors, a table with
non-empty `headers` always has `rows[0] == headers` (the header row is
duplicated into the first row), and the shared Markdown table rendering
skips `rows[0]` when headers are present while emitting a separator row
built from exactly `headers.length` `"---"` cells. -/
theorem c4_table_header_duplication :
    (∀ cells : List (List String),
      (docxExtractTable cells).headers ≠ [] →
      (docxExtractTable cells).rows.head? = some (docxExtractTable cells).headers) ∧
    (∀ (table : List (List (Option String))) (t : PdfTable),
      pdfExtractTable table = some t → t.headers ≠ [] →
      t.rows.head? = some t.headers) ∧
    (∀ (cellTexts : List (List String)) (t : PptxTable),
      pptxExtractTable cellTexts = some t → t.headers ≠ [] →
      t.rows.head? = some t.headers) ∧
    (∀ (headers : List String) (rows : List (List String)),
      headers ≠ [] → rows ≠ [] →
      (List.replicate headers.length ("---" : String)).length = headers.length ∧
      mdTableParts headers rows =
        [""] ++
          ["| " ++ joinSep " | " headers ++ " |",
           "| " ++ joinSep " | " (List.replicate headers.length "---") ++ " |"] ++
          ((rows.drop 1).map (fun row => "| " ++ joinSep " | " row ++ " |")) ++
          [""]) := by
  refine ⟨?_, ?_, ?_, ?_⟩
  · intro cells hne
    cases cells with
    | nil => exact absurd rfl hne
    | cons c rest => simp [docxExtractTable]
  · intro table t ht hne
    cases table with
    | nil => exact absurd ht (by simp [pdfExtractTable])
    | cons r0 rest =>
      simp only [pdfExtractTable, Option.some.injEq] at ht
      subst ht
      simp
  · intro cellTexts t ht hne
    cases cellTexts with
    | nil => exact absurd ht (by simp [pptxExtractTable])
    | cons r0 rest =>
      simp only [pptxExtractTable, List.map_cons, Option.some.injEq] at ht
      subst ht
      simp
  · intro headers rows hh hr
    refine ⟨List.length_replicate _ _, ?_⟩
    simp [mdTableParts, hh, hr]

/-- Claim C4 witness: a concrete two-row table through each extractor
and the renderer. -/
theorem c4_witness :
    (docxExtractTable [["a", "b"], ["1", "2"]]).rows.head? =
      some (docxExtractTable [["a", "b"], ["1", "2"]]).headers ∧
    (∀ t, pdfExtractTable [[some "x"], [some "1"]] = some t →
      t.rows.head? = some t.headers) ∧
    (∀ t, pptxExtractTable [["y"], ["2"]] = some t →
      t.rows.head? = some t.headers) ∧
    mdTableParts ["A", "B"] [["A", "B"], ["1", "2"]] =
      ["", "| A | B |", "| --- | --- |", "| 1 | 2 |", ""] := by
  refine ⟨?_, ?_, ?_, ?_⟩
  · exact c4_table_header_duplication.1 [["a", "b"], ["1", "2"]] (by decide)
  · intro t ht
    exact c4_table_header_duplication.2.1 [[some "x"], [some "1"]] t ht
      (by cases ht; decide)
  · intro t ht
    exact c4_table_header_duplication.2.2.1 [["y"], ["2"]] t ht
      (by cases ht; decide)
  · have h := (c4_table_header_duplication.2.2.2 ["A", "B"]
      [["A", "B"], ["1", "2"]] (by decide) (by decide)).2
    rw [h]
    rfl

/-- From a state whose cache already holds the extraction, any call
sequence leaves the state untouched and each output depends only on its
own timestamp. -/
theorem runCalls_cached {C M : Type} (filename ftype : String)
    (fmt : C → String) (jdump : JsonEnvelope C M → String) (ex : C)
    (exM : M) (n : Nat) (calls : List RenderCall) :
    runCalls filename ftype fmt jdump ex exM calls ⟨some ex, exM, n⟩ =
      (calls.map (fun call =>
        match call with
        | .md ts => mkMdHeader filename ftype ts ++ fmt ex
        | .js ts => jdump ⟨filename, ftype, ts, ex, exM⟩),
       ⟨some ex, exM, n⟩) := by
  induction calls with
  | nil => rfl
  | cons call rest ih =>
    cases call with
    | md ts => simp [runCalls, bcToMarkdown, bcConvert, ih]
    | js ts => simp [runCalls, bcToJson, bcConvert, ih]

/-- Claim C5: over any sequence of `to_markdown`/`to_json` calls on a
fresh converter, `_extract_content` runs exactly once (zero times for
the empty sequence), and every output is a fixed function of the
call kind and its own embedded timestamp alone — so two outputs of the
same kind are byte-identical except for the timestamp, and calls with
equal timestamps are byte-identical. -/
theorem c5_extraction_cached {C M : Type} (filename ftype : String)
    (fmt : C → String) (jdump : JsonEnvelope C M → String) (ex : C)
    (exM : M) (m0 : M) (calls : List RenderCall) :
    (runCalls filename ftype fmt jdump ex exM calls
        (freshState m0)).2.extractCount =
      (if calls.isEmpty then 0 else 1) ∧
    (runCalls filename ftype fmt jdump ex exM calls (freshState m0)).1 =
      calls.map (fun call =>
        match call with
        | .md ts => mkMdHeader filename ftype ts ++ fmt ex
        | .js ts => jdump ⟨filename, ftype, ts, ex, exM⟩) := by
  cases calls with
  | nil => exact ⟨rfl, rfl⟩
  | cons call rest =>
    cases call with
    | md ts =>
      constructor
      · simp [runCalls, bcToMarkdown, bcConvert, freshState,
          runCalls_cached]
      · simp [runCalls, bcToMarkdown, bcConvert, freshState,
          runCalls_cached]
    | js ts =>
      constructor
      · simp [runCalls, bcToJson, bcConvert, freshState,
          runCalls_cached]
      · simp [runCalls, bcToJson, bcConvert, freshState,
          runCalls_cached]

/-- `dictInsert` preserves "no empty keys" when the inserted key is
nonempty. -/
theorem dictInsert_keys (d : List (String × String)) (k v : String)
    (hd : ∀ kv ∈ d, kv.1 ≠ "") (hk : k ≠ "") :
    ∀ kv ∈ dictInsert d k v, kv.1 ≠ "" := by
  intro kv hkv
  unfold dictInsert at hkv
  split at hkv
  · obtain ⟨q, hq, hmap⟩ := List.mem_map.mp hkv
    by_cases hqk : q.1 = k
    · rw [if_pos hqk] at hmap
      rw [← hmap]
      exact hk
    · rw [if_neg hqk] at hmap
      rw [← hmap]
      exact hd q hq
  · rcases List.mem_append.mp hkv with h | h
    · exact hd kv h
    · simp only [List.mem_singleton] at h
      rw [h]
      exact hk

/-- The record-building fold only ever inserts nonempty keys. -/
theorem foldlInsert_keys (row : List String) :
    ∀ (l : List (Nat × String)) (acc : List (String × String)),
      (∀ kv ∈ acc, kv.1 ≠ "") →
      ∀ kv ∈ l.foldl
        (fun rec p =>
          if p.2 ≠ "" then dictInsert rec p.2 (row.getD p.1 "") else rec) acc,
        kv.1 ≠ "" := by
  intro l
  induction l with
  | nil => intro acc hacc kv hkv; exact hacc kv hkv
  | cons p rest ih =>
    intro acc hacc kv hkv
    simp only [List.foldl_cons] at hkv
    by_cases hp : p.2 ≠ ""
    · rw [if_pos hp] at hkv
      exact ih _ (dictInsert_keys acc p.2 _ hacc hp) kv hkv
    · rw [if_neg hp] at hkv
      exact ih acc hacc kv hkv

/-- When the keys to insert are pairwise distinct, nonempty, and absent
from the accumulator, the fold is a plain append of `(key, value)`
pairs. -/
theorem foldlInsert_fresh (row : List String) :
    ∀ (l : List (Nat × String)) (acc : List (String × String)),
      (l.map Prod.snd).Nodup →
      (∀ p ∈ l, p.2 ≠ "") →
      (∀ p ∈ l, ∀ kv ∈ acc, kv.1 ≠ p.2) →
      l.foldl
        (fun rec p =>
          if p.2 ≠ "" then dictInsert rec p.2 (row.getD p.1 "") else rec) acc =
        acc ++ l.map (fun p => (p.2, row.getD p.1 "")) := by
  intro l
  induction l with
  | nil => intro acc _ _ _; simp
  | cons p rest ih =>
    intro acc hnodup hne hdisj
    simp only [List.map_cons, List.nodup_cons] at hnodup
    simp only [List.foldl_cons]
    rw [if_pos (hne p (List.mem_cons_self p rest))]
    have habsent : acc.any (fun q => q.1 = p.2) = false := by
      rw [List.any_eq_false]
      intro q hq
      simp only [decide_eq_true_eq]
      exact hdisj p (List.mem_cons_self p rest) q hq
    rw [dictInsert, if_neg (by simp [habsent])]
    rw [ih (acc ++ [(p.2, row.getD p.1 "")]) hnodup.2
      (fun q hq => hne q (List.mem_cons_of_mem p hq))
      ?_]
    · simp
    · intro q hq kv hkv
      rcases List.mem_append.mp hkv with h | h
      · exact hdisj q (List.mem_cons_of_mem p hq) kv h
      · simp only [List.mem_singleton] at h
        rw [h]
        intro heq
        have heq' : p.2 = q.2 := heq
        exact hnodup.1 (heq' ▸ List.mem_map_of_mem Prod.snd hq)

/-- Claim C6: a sheet with non-empty headers and more than one data row
serializes with a `records` array zipping each of `rows[1:]` against
the headers (and the untouched `raw_rows`); record keys are never the
empty header name; and for duplicate-free nonempty headers the record
of a row is exactly the header-indexed zip, a row shorter than the
headers yielding `""` for the missing cells. -/
theorem c6_records_view :
    (∀ s : SheetData, s.headers ≠ [] → s.rows.length > 1 →
      buildSheetJson s =
        .withRecords s.name s.headers
          ((s.rows.drop 1).map (recordOf s.headers)) s.rows) ∧
    (∀ (headers row : List String), ∀ kv ∈ recordOf headers row, kv.1 ≠ "") ∧
    (∀ (headers row : List String), headers.Nodup →
      (∀ h ∈ headers, h ≠ "") →
      recordOf headers row =
        headers.enum.map (fun p => (p.2, row.getD p.1 ""))) := by
  refine ⟨?_, ?_, ?_⟩
  · intro s hh hr
    unfold buildSheetJson
    rw [if_pos ⟨hh, hr⟩]
  · intro headers row kv hkv
    exact foldlInsert_keys row headers.enum [] (by simp) kv hkv
  · intro headers row hnodup hne
    unfold recordOf
    rw [foldlInsert_fresh row headers.enum []
      (by rw [List.enum_map_snd]; exact hnodup)
      (fun p hp => hne p.2 (by
        have := List.mem_enum_iff_getElem?.mp hp
        exact List.getElem?_mem this))
      (by simp)]
    simp

/-- Claim C6 witness: the spec's concrete example — headers
`["Name","Age"]` with rows `[["Name","Age"],["Ann","30"]]` produce
`records == [{"Name": "Ann", "Age": "30"}]` alongside the raw rows. -/
theorem c6_witness :
    buildSheetJson ⟨"Sheet1", ["Name", "Age"],
        [["Name", "Age"], ["Ann", "30"]], 2, 2⟩ =
      .withRecords "Sheet1" ["Name", "Age"]
        [[("Name", "Ann"), ("Age", "30")]]
        [["Name", "Age"], ["Ann", "30"]] := by
  rw [c6_records_view.1 ⟨"Sheet1", ["Name", "Age"],
    [["Name", "Age"], ["Ann", "30"]], 2, 2⟩ (by decide) (by decide)]
  decide

/-- Appending cannot erase a nonempty prefix string. -/
theorem str_append_ne_empty (s t : String) (hs : s ≠ "") : s ++ t ≠ "" := by
  intro h
  apply hs
  have hd : s.data ++ t.data = ([] : List Char) := by
    rw [← String.data_append, h]
  have h2 : s.data = [] := (List.append_eq_nil.mp hd).1
  cases s
  simp only at h2
  rw [h2]

/-- Claim C7: whatever the environment and API outcome — vision module
missing, `VISION_ENABLED=false`, unknown provider name (the factory's
`ValueError` is caught), missing API key, call failure, malformed JSON
response — `_perform_vision_analysis` returns a dictionary (it is a
total function into `VisionAnalysisValue`), and whenever that
dictionary has `success = false` it carries a non-empty `error`
string. -/
theorem c7_vision_failure_nonfatal (env : VisionEnv)
    (outcome : ProviderId → ApiOutcome) :
    vavSuccess (performVisionAnalysis env outcome) = false →
    ∃ e, vavError (performVisionAnalysis env outcome) = some e ∧ e ≠ "" := by
  unfold performVisionAnalysis
  split
  · intro _
    exact ⟨_, rfl, by decide⟩
  · split
    · intro _
      exact ⟨_, rfl, by decide⟩
    · split
      · intro _
        refine ⟨_, rfl, ?_⟩
        exact str_append_ne_empty "Vision analysis failed: " _ (by decide)
      · intro _
        exact ⟨_, rfl, by decide⟩
      · rename_i pid _
        cases houtcome : outcome pid with
        | importErr =>
          intro _
          refine ⟨libMissingMsg pid, ?_, ?_⟩
          · simp [vavError, houtcome, analyzeImage, toDict, truthyStr,
              libMissingMsg]
            cases pid <;> simp [libMissingMsg]
          · cases pid <;> decide
        | apiErr m =>
          intro _
          refine ⟨apiErrPrefix pid ++ m, ?_, ?_⟩
          · have hne : apiErrPrefix pid ++ m ≠ "" :=
              str_append_ne_empty _ _ (by cases pid <;> decide)
            simp [vavError, houtcome, analyzeImage, toDict, truthyStr, hne]
          · exact str_append_ne_empty _ _ (by cases pid <;> decide)
        | jsonErr m =>
          intro _
          refine ⟨"Failed to parse JSON response: " ++ m, ?_, ?_⟩
          · have hne : ("Failed to parse JSON response: " : String) ++ m ≠ "" :=
              str_append_ne_empty _ _ (by decide)
            simp [vavError, houtcome, analyzeImage, toDict, truthyStr, hne]
          · exact str_append_ne_empty _ _ (by decide)
        | parsed v =>
          intro hsucc
          simp [vavSuccess, houtcome, analyzeImage, toDict] at hsucc

/-- Claim C7 witness: with the vision feature flag set to `"false"`,
the analysis value is unsuccessful and carries a non-empty error. -/
theorem c7_witness :
    vavSuccess (performVisionAnalysis
      ⟨true, some "false", none, none, fun _ => true, fun _ => none⟩
      (fun _ => .parsed .jnull)) = false ∧
    ∃ e, vavError (performVisionAnalysis
        ⟨true, some "false", none, none, fun _ => true, fun _ => none⟩
        (fun _ => .parsed .jnull)) = some e ∧ e ≠ "" := by
  refine ⟨?_, ?_⟩
  · rfl
  · exact c7_vision_failure_nonfatal _ _ rfl

/-- Claim C8 counterexample: a provider success whose response text
parses to an empty JSON object (`json.loads("{}")`, a value `to_dict`
treats as falsy) serializes with `success = true` but NO `analysis` key
— so a provider-produced result can satisfy neither disjunct of the
claimed "success with analysis / failure with error" alternative. -/
theorem c8_counterexample :
    (toDict (analyzeImage .openai (.parsed (.jobj [])))).success = true ∧
    (toDict (analyzeImage .openai (.parsed (.jobj [])))).analysis.isNone = true ∧
    (toDict (analyzeImage .openai (.parsed (.jobj [])))).error.isNone = true ∧
    ¬ (((toDict (analyzeImage .openai (.parsed (.jobj [])))).success = true ∧
        (toDict (analyzeImage .openai (.parsed (.jobj [])))).analysis.isSome = true ∧
        (toDict (analyzeImage .openai (.parsed (.jobj [])))).error.isNone = true) ∨
       ((toDict (analyzeImage .openai (.parsed (.jobj [])))).success = false ∧
        (toDict (analyzeImage .openai (.parsed (.jobj [])))).error.isSome = true ∧
        (toDict (analyzeImage .openai (.parsed (.jobj [])))).analysis.isNone = true)) := by
  refine ⟨rfl, rfl, rfl, ?_⟩
  rintro (⟨_, h, _⟩ | ⟨h, _, _⟩) <;> exact absurd h (by decide)

/-- Claim C8 as amended: every provider-produced result serializes to a
dictionary that never holds an `analysis` and an `error` together; on
`success = false` it always has a (non-empty) `error` and no
`analysis`; on `success = true` it has no `error`, and an `analysis`
key exactly when the parsed analysis value is truthy (in particular an
empty or null parsed analysis leaves the key absent). -/
theorem c8_tagged_outcome (pid : ProviderId) (o : ApiOutcome) :
    ¬ ((toDict (analyzeImage pid o)).analysis.isSome = true ∧
       (toDict (analyzeImage pid o)).error.isSome = true) ∧
    ((toDict (analyzeImage pid o)).success = false →
      (toDict (analyzeImage pid o)).error.isSome = true ∧
      (toDict (analyzeImage pid o)).analysis = none) ∧
    ((toDict (analyzeImage pid o)).success = true →
      (toDict (analyzeImage pid o)).error = none ∧
      ((toDict (analyzeImage pid o)).analysis.isSome = true ↔
        ∃ v, o = .parsed v ∧ pyTruthy v = true)) := by
  cases o with
  | importErr =>
    have hne : truthyStr (some (libMissingMsg pid)) = true := by
      cases pid <;> decide
    refine ⟨?_, ?_, ?_⟩
    · rintro ⟨ha, _⟩
      simp [toDict, analyzeImage] at ha
    · intro _
      constructor
      · simp [toDict, analyzeImage, hne]
      · simp [toDict, analyzeImage]
    · intro hs
      simp [toDict, analyzeImage] at hs
  | apiErr m =>
    have hne : truthyStr (some (apiErrPrefix pid ++ m)) = true := by
      simp [truthyStr]
      exact str_append_ne_empty _ _ (by cases pid <;> decide)
    refine ⟨?_, ?_, ?_⟩
    · rintro ⟨ha, _⟩
      simp [toDict, analyzeImage] at ha
    · intro _
      constructor
      · simp [toDict, analyzeImage, hne]
      · simp [toDict, analyzeImage]
    · intro hs
      simp [toDict, analyzeImage] at hs
  | jsonErr m =>
    have hne : truthyStr (some (("Failed to parse JSON response: " : String) ++ m)) = true := by
      simp [truthyStr]
      exact str_append_ne_empty _ _ (by decide)
    refine ⟨?_, ?_, ?_⟩
    · rintro ⟨ha, _⟩
      simp [toDict, analyzeImage] at ha
    · intro _
      constructor
      · simp [toDict, analyzeImage, hne]
      · simp [toDict, analyzeImage]
    · intro hs
      simp [toDict, analyzeImage] at hs
  | parsed v =>
    refine ⟨?_, ?_, ?_⟩
    · rintro ⟨_, he⟩
      simp [toDict, analyzeImage, truthyStr] at he
    · intro hs
      simp [toDict, analyzeImage] at hs
    · intro _
      constructor
      · simp [toDict, analyzeImage, truthyStr]
      · constructor
        · intro ha
          refine ⟨v, rfl, ?_⟩
          by_cases hv : pyTruthy v = true
          · exact hv
          · simp [toDict, analyzeImage, hv] at ha
        · rintro ⟨w, hw, htw⟩
          cases hw
          simp [toDict, analyzeImage, htw]

/-- Claim C8 witness: concrete instances of the amended statement — a
JSON-parse failure yields an error with no analysis, and a truthy
parsed analysis yields an analysis with no error. -/
theorem c8_witness :
    ((toDict (analyzeImage .openai (.jsonErr "bad"))).error.isSome = true ∧
      (toDict (analyzeImage .openai (.jsonErr "bad"))).analysis = none) ∧
    ((toDict (analyzeImage .gemini (.parsed (.jstr "scene")))).error = none ∧
      (toDict (analyzeImage .gemini (.parsed (.jstr "scene")))).analysis.isSome = true) := by
  constructor
  · exact (c8_tagged_outcome .openai (.jsonErr "bad")).2.1 rfl
  · refine ⟨((c8_tagged_outcome .gemini (.parsed (.jstr "scene"))).2.2 rfl).1, ?_⟩
    exact ((c8_tagged_outcome .gemini (.parsed (.jstr "scene"))).2.2 rfl).2.mpr
      ⟨.jstr "scene", rfl, by decide⟩

/-- Claim C10: a maximal run of exactly one `|`-starting line (holding a
second pipe) is silently dropped: `_add_table` on fewer than two lines
adds nothing, and the main loop continues exactly as if the line were
absent, so the line contributes neither a table nor a paragraph. -/
theorem c10_single_line_table_dropped :
    (∀ l : List Char, addTable [l] = []) ∧
    ∀ (cs : List Char) (rest : List (List Char)),
      cs.contains '|' = true →
      (∀ r, rest.head? = some r → isPrefixL ['|'] r = false) →
      goBlocks (('|' :: cs) :: rest) = goBlocks rest := by
  constructor
  · intro l; rfl
  · intro cs rest hsecond hnext
    rw [goBlocks]
    have hfence : isPrefixL "```".data ('|' :: cs) = false := by
      simp [isPrefixL]
    rw [if_neg (by simp [hfence])]
    have hcond : (isPrefixL ['|'] ('|' :: cs) ∧ (('|' :: cs).drop 1).contains '|') := by
      refine ⟨by simp [isPrefixL], ?_⟩
      simpa using hsecond
    rw [if_pos hcond]
    have htw : rest.takeWhile (isPrefixL ['|']) = [] := by
      cases rest with
      | nil => rfl
      | cons r rs =>
        have := hnext r rfl
        simp [List.takeWhile, this]
    rw [htw]
    simp [addTable]

/-- Claim C10 witness: `"| a | b |"` followed by a non-table line. -/
theorem c10_witness :
    addTable ["| a | b |".data] = [] ∧
    goBlocks ["| a | b |".data, "not a table".data] =
      goBlocks ["not a table".data] := by
  refine ⟨c10_single_line_table_dropped.1 _, ?_⟩
  have h := c10_single_line_table_dropped.2 " a | b |".data ["not a table".data]
    (by decide) (by decide)
  exact h

end FileConv
